import Mathlib

/-!
Shallow embedding of the room-orchestration engine of `src/server/index.js`
(live trivia server).  Pure functions of the source become Lean functions;
the socket handlers become state-passing functions on a `Room`; the two
`setTimeout`-scheduled transitions become explicit pending-timer bookkeeping
on a `Sched` state.  Randomness (`Math.random`) is threaded as explicit
numeric parameters.  All definitions are executable.
-/

namespace Gameid

/-- The fixed power enumeration (`POWERS`, index.js lines 28–36). -/
inductive PowerType
  | PLUS | MINUS | SWAP_LOW | SWAP_HIGH | X2_SCORE | STUN | FINAL_X4
deriving DecidableEq, Repr

/-- A raw catalog entry as loaded from `questions.json`.  `optionScores` is
`none` when the JSON field is absent or not an array
(`!Array.isArray(q.optionScores)`). -/
structure QuestionData where
  id : Nat
  text : String
  options : List String
  optionScores : Option (List Int)
  bestIndex : Int
deriving DecidableEq, Repr

/-- A catalog entry enriched with the derived `isLast` flag
(`getQuestion`, lines 61–66). -/
structure Question extends QuestionData where
  isLast : Bool
deriving DecidableEq, Repr

/-- `getQuestion(index)` (lines 61–66): `questions[index]` with
`isLast = (index === questions.length - 1)`. -/
def getQuestion (questions : List QuestionData) (index : Nat) : Option Question :=
  match questions[index]? with
  | none => none
  | some q =>
      some { toQuestionData := q,
             isLast := decide ((index : Int) = (questions.length : Int) - 1) }

/-- JS indexing `l[i] || 0` for an integer index `i`: the stored entry when
`i` is in range (a stored `0` and the `|| 0` fallback coincide), `0`
otherwise. -/
def jsIndexD (l : List Int) (i : Int) : Int :=
  if 0 ≤ i ∧ i < l.length then l.getD i.toNat 0 else 0

/-- `getEffectiveScore(q, answerIndex)` (lines 68–72). -/
def getEffectiveScore (q : Option Question) (answerIndex : Int) : Int :=
  match q with
  | none => 0
  | some q =>
      match q.optionScores with
      | none => 0
      | some scores =>
          let base := jsIndexD scores answerIndex
          if q.isLast then base * 4 else base

/-- The pool drawn from by `randomPower` (lines 74–86). -/
def powerPool (questions : List QuestionData) (questionIndex : Nat) : List PowerType :=
  let isLast := decide ((questionIndex : Int) = (questions.length : Int) - 1)
  [.PLUS, .MINUS, .SWAP_LOW, .SWAP_HIGH, .X2_SCORE, .STUN] ++
    (if isLast then [.FINAL_X4] else [])

/-- `randomPower(questionIndex)` (lines 74–86) with the random draw
`Math.floor(Math.random() * pool.length)` threaded as `r % pool.length`. -/
def randomPower (questions : List QuestionData) (questionIndex : Nat) (r : Nat) : PowerType :=
  (powerPool questions questionIndex).getD
    (r % (powerPool questions questionIndex).length) .PLUS

/-- A submitted answer (pushed at line 331). -/
structure Answer where
  questionIndex : Nat
  answerIndex : Int
  gained : Int
deriving DecidableEq, Repr

/-- A granted power slot (pushed at line 148). -/
structure Power where
  type : PowerType
  used : Bool
deriving DecidableEq, Repr

/-- A player record (created at lines 279–288). -/
structure Player where
  playerId : String
  socketId : String
  name : String
  avatarId : String
  score : Int
  stunnedUntil : Int
  answers : List Answer
  powers : List Power
deriving DecidableEq, Repr

/-- Room phase (`room.state`): one of `'lobby'`, `'question'`, `'results'`,
`'ended'`. -/
inductive RoomState
  | lobby | question | results | ended
deriving DecidableEq, Repr

/-- A room (created at lines 48–56).  `timer` holds the identifier of the
tracked pending timer (`room.timer`), `none` when the handle is null. -/
structure Room where
  code : String
  hostSocketId : Option String
  state : RoomState
  currentQuestionIndex : Nat
  questionEndsAt : Option Int
  players : List Player
  timer : Option Nat
deriving DecidableEq, Repr

/-- `createRoom()` (lines 45–59), with the generated code as a parameter. -/
def createRoom (code : String) : Room :=
  { code := code
    hostSocketId := none
    state := .lobby
    currentQuestionIndex := 0
    questionEndsAt := none
    players := []
    timer := none }

/-- One row of the leaderboard payload (lines 155–160 and 191–196). -/
structure LBEntry where
  rank : Nat
  playerId : String
  name : String
  score : Int
deriving DecidableEq, Repr

/-- The comparator `(a, b) => b.score - a.score` of lines 154 and 190, as the
ordering test "`a` may come before `b`": `comparator a b ≤ 0`. -/
def lbLE (a b : Player) : Bool := b.score ≤ a.score

/-- Ranks entries of an already-sorted player list starting from 0-based
position `i` (`.map((p, idx) => ({ rank: idx + 1, ... }))`). -/
def withRanks : Nat → List Player → List LBEntry
  | _, [] => []
  | i, p :: ps =>
      { rank := i + 1, playerId := p.playerId, name := p.name, score := p.score }
        :: withRanks (i + 1) ps

/-- The leaderboard computed identically at lines 153–160 (results) and
189–196 (game end): a stable sort of the player list by descending score
(`Array.prototype.sort` is stable), then 1-based ranks by position. -/
def leaderboard (players : List Player) : List LBEntry :=
  withRanks 0 (players.mergeSort lbLE)

/-! ### Per-room handler bodies (room-level state, no timers) -/

/-- Updates the first list element satisfying `pred` (JS mutates the object
returned by `Array.prototype.find`, which is the first match). -/
def updateFirstP (pred : Player → Bool) (f : Player → Player) : List Player → List Player
  | [] => []
  | p :: ps => if pred p then f p :: ps else p :: updateFirstP pred f ps

/-- Reply of the `room:join` handler. -/
inductive JoinRes
  | ok (roomCode playerId : String)
  | error (msg : String)
deriving DecidableEq, Repr

/-- The `room:join` handler body after room lookup (lines 263–294). -/
def roomJoin (room : Room) (name avatarId playerId sockId : String) : Room × JoinRes :=
  if room.players.any (fun p => p.playerId == playerId) then
    ({ room with
        players := updateFirstP (fun p => p.playerId == playerId)
          (fun p => { p with socketId := sockId }) room.players },
     .ok room.code playerId)
  else if room.players.any (fun p => p.avatarId == avatarId) then
    (room, .error "Avatar already taken")
  else
    ({ room with
        players := room.players ++
          [{ playerId := playerId, socketId := sockId, name := name,
             avatarId := avatarId, score := 0, stunnedUntil := -1,
             answers := [], powers := [] }] },
     .ok room.code playerId)

/-- Reply of the `player:submitAnswer` handler. -/
inductive SubmitRes
  | ok (gained : Int)
  | error (msg : String)
deriving DecidableEq, Repr

/-- The guard `!room.questionEndsAt || now > room.questionEndsAt`
(line 316). -/
def deadlineExpired (questionEndsAt : Option Int) (now : Int) : Bool :=
  match questionEndsAt with
  | none => true
  | some endsAt => now > endsAt

/-- The `player:submitAnswer` handler body after room lookup
(lines 311–335).  `now` is the `Date.now()` sample of line 315. -/
def submitAnswer (questions : List QuestionData) (room : Room)
    (playerId : String) (answerIndex : Int) (now : Int) : Room × SubmitRes :=
  if deadlineExpired room.questionEndsAt now then (room, .error "Time is up")
  else
    match room.players.find? (fun p => p.playerId == playerId) with
    | none => (room, .error "Player not found")
    | some player =>
        if player.stunnedUntil > (room.currentQuestionIndex : Int) then
          (room, .error "You are stunned this question")
        else if player.answers.any
            (fun a => a.questionIndex == room.currentQuestionIndex) then
          (room, .error "Already answered")
        else
          match getQuestion questions room.currentQuestionIndex with
          | none => (room, .error "No question")
          | some q =>
              ({ room with
                  players := updateFirstP (fun p => p.playerId == playerId)
                    (fun p =>
                      { p with
                          answers := p.answers ++
                            [{ questionIndex := room.currentQuestionIndex,
                               answerIndex := answerIndex,
                               gained := getEffectiveScore (some q) answerIndex }],
                          score := p.score + getEffectiveScore (some q) answerIndex })
                    room.players },
               .ok (getEffectiveScore (some q) answerIndex))

/-- Updates the list element at position `i` (JS mutates the object held at
that array position). -/
def updateAt (ps : List Player) (i : Nat) (f : Player → Player) : List Player :=
  match ps[i]? with
  | none => ps
  | some p => ps.set i (f p)

/-- Exchanges the scores of the players at positions `i` and `j`, using the
originally-read values (the `tmp` dance of lines 217–219 / 226–228); the
identity when `i = j`. -/
def swapScores (ps : List Player) (i j : Nat) : List Player :=
  match ps[i]?, ps[j]? with
  | some a, some b => (ps.set i { a with score := b.score }).set j { b with score := a.score }
  | _, _ => ps

/-- Position of `[...players].sort((a,b) => a.score - b.score)[0]`: the first
player (in join order, by sort stability) holding the minimal score. -/
def lowestIdx (ps : List Player) : Option Nat :=
  match (ps.map (fun p => p.score)).min? with
  | none => none
  | some m => ps.findIdx? (fun p => p.score == m)

/-- Position of `[...players].sort((a,b) => b.score - a.score)[0]`: the first
player (in join order, by sort stability) holding the maximal score. -/
def highestIdx (ps : List Player) : Option Nat :=
  match (ps.map (fun p => p.score)).max? with
  | none => none
  | some m => ps.findIdx? (fun p => p.score == m)

/-- `applyPower(room, type, actor, target)` (lines 200–250), with actor and
target as positions in `room.players` and the random draw
`Math.floor(Math.random() * 6000)` threaded as `r % 6000`. -/
def applyPower (questions : List QuestionData) (room : Room) (type : PowerType)
    (aIdx tIdx : Nat) (r : Nat) : Room :=
  match type with
  | .PLUS =>
      let delta : Int := 1000 + (r % 6000 : Nat)
      { room with players :=
          updateAt room.players aIdx (fun p => { p with score := p.score + delta }) }
  | .MINUS =>
      let delta : Int := 1000 + (r % 6000 : Nat)
      { room with players :=
          updateAt room.players tIdx (fun p => { p with score := max 0 (p.score - delta) }) }
  | .SWAP_LOW =>
      match lowestIdx room.players with
      | none => room
      | some j => { room with players := swapScores room.players aIdx j }
  | .SWAP_HIGH =>
      match highestIdx room.players with
      | none => room
      | some j => { room with players := swapScores room.players aIdx j }
  | .X2_SCORE =>
      { room with players :=
          updateAt room.players aIdx (fun p => { p with score := p.score * 2 }) }
  | .STUN =>
      let f := fun p => { p with stunnedUntil := (room.currentQuestionIndex : Int) + 1 }
      { room with players := updateAt room.players tIdx f }
  | .FINAL_X4 =>
      match getQuestion questions room.currentQuestionIndex with
      | none => room
      | some q =>
          if q.isLast then
            { room with players :=
                updateAt room.players aIdx (fun p => { p with score := p.score * 4 }) }
          else room

/-- Broadcasts emitted by the `player:usePower` handler (payload fields other
than the power type are elided; only emission and multiplicity matter here). -/
inductive Event
  | powerUsed (t : PowerType)
  | roomUpdate
deriving DecidableEq, Repr

/-- Reply of the `player:usePower` handler. -/
inductive PowerRes
  | ok
  | error (msg : String)
deriving DecidableEq, Repr

/-- Position of the first list element satisfying `pred`
(`Array.prototype.find` returns the object stored at this position). -/
def findIdxP (pred : Player → Bool) : List Player → Option Nat
  | [] => none
  | p :: ps => if pred p then some 0 else (findIdxP pred ps).map (· + 1)

/-- The target resolution of line 342: the named target when it resolves,
otherwise the actor (`room.players.find(...) || actor`). -/
def resolveTarget (room : Room) (aIdx? : Option Nat) : Option String → Option Nat
  | none => aIdx?
  | some t =>
      match findIdxP (fun p => p.playerId == t) room.players with
      | some i => some i
      | none => aIdx?

/-- The `player:usePower` handler body after room lookup (lines 337–362).
Returns the updated room, the acknowledgment, and the emitted broadcasts. -/
def usePower (questions : List QuestionData) (room : Room) (playerId : String)
    (targetPlayerId : Option String) (powerIndex : Nat) (r : Nat) :
    Room × PowerRes × List Event :=
  let aIdx? := findIdxP (fun p => p.playerId == playerId) room.players
  let tIdx? := resolveTarget room aIdx? targetPlayerId
  match aIdx? with
  | none => (room, .error "Actor not found", [])
  | some aIdx =>
      match room.players[aIdx]? with
      | none => (room, .error "Actor not found", [])
      | some actor =>
          let tIdx := tIdx?.getD aIdx
          match actor.powers[powerIndex]? with
          | none => (room, .error "Power not available", [])
          | some power =>
              if power.used then (room, .error "Power not available", [])
              else
                let room1 := applyPower questions room power.type aIdx tIdx r
                let room2 := { room1 with
                  players := updateAt room1.players aIdx
                    (fun p => { p with
                      powers := p.powers.set powerIndex { power with used := true } }) }
                (room2, .ok, [.powerUsed power.type, .roomUpdate])

/-! ### Timer-level state machine

The server schedules exactly two kinds of callbacks: the deadline
enforcement of `startQuestion` (line 134, stored in `room.timer`) and the
anonymous inter-round delay of `finalizeQuestion` (line 172, not stored
anywhere).  `Sched` tracks the room together with every live timeout. -/

/-- Kind of a scheduled callback. -/
inductive TimerKind
  | finalizeQ | interRound
deriving DecidableEq, Repr

/-- A room together with its live timeouts (identifier, kind) and a fresh
identifier supply. -/
structure Sched where
  room : Room
  pending : List (Nat × TimerKind)
  nextId : Nat
deriving DecidableEq, Repr

/-- A freshly created room has no scheduled callbacks. -/
def initSched (room : Room) : Sched :=
  { room := room, pending := [], nextId := 0 }

/-- `clearTimeout(room.timer); room.timer = null` (lines 108–111, 185–188). -/
def clearRoomTimer (s : Sched) : Sched :=
  match s.room.timer with
  | none => s
  | some id =>
      { s with
          room := { s.room with timer := none }
          pending := s.pending.filter (fun t => t.1 != id) }

/-- `setTimeout(...)`: registers a live callback and returns its handle. -/
def scheduleTimer (s : Sched) (k : TimerKind) : Sched × Nat :=
  ({ s with pending := s.pending ++ [(s.nextId, k)], nextId := s.nextId + 1 }, s.nextId)

/-- `endGame(room)` (lines 183–198): set phase to ended, then clear the
tracked timer. -/
def endGame (s : Sched) : Sched :=
  clearRoomTimer { s with room := { s.room with state := .ended } }

/-- `startQuestion(room)` (lines 107–135): clear the tracked timer, end the
game if the catalog is exhausted, otherwise enter the question phase with
deadline `now + 30000` and schedule the finalize callback (tracked). -/
def startQuestion (questions : List QuestionData) (now : Int) (s : Sched) : Sched :=
  let s := clearRoomTimer s
  match getQuestion questions s.room.currentQuestionIndex with
  | none => endGame s
  | some _ =>
      let s := { s with room := { s.room with
                  state := .question, questionEndsAt := some (now + 30000) } }
      let p := scheduleTimer s .finalizeQ
      { p.1 with room := { p.1.room with timer := some p.2 } }

/-- The power grant of `finalizeQuestion` (lines 143–150): every player whose
recorded answer for the current question equals `bestIndex` receives one
random power.  `rs` supplies the random draw per player position. -/
def grantPowers (questions : List QuestionData) (rs : Nat → Nat) (qIndex : Nat)
    (q : Question) : Nat → List Player → List Player
  | _, [] => []
  | i, p :: ps =>
      (match p.answers.find? (fun a => a.questionIndex == qIndex) with
       | none => p
       | some ans =>
           if ans.answerIndex = q.bestIndex then
             { p with powers := p.powers ++
                 [{ type := randomPower questions qIndex (rs i), used := false }] }
           else p)
        :: grantPowers questions rs qIndex q (i + 1) ps

/-- `finalizeQuestion(room)` (lines 137–181): null the tracked handle, grant
powers, enter the results phase, and schedule the 4-second inter-round delay
on an anonymous, untracked timeout (line 172). -/
def finalizeBody (questions : List QuestionData) (rs : Nat → Nat) (s : Sched) : Sched :=
  let s := { s with room := { s.room with timer := none } }
  match getQuestion questions s.room.currentQuestionIndex with
  | none => s
  | some q =>
      let s := { s with room := { s.room with
                  players := grantPowers questions rs s.room.currentQuestionIndex q 0
                    s.room.players,
                  state := .results } }
      (scheduleTimer s .interRound).1

/-- The inter-round callback body (lines 172–180): advance the index, then
either end the game or start the next question. -/
def interRoundBody (questions : List QuestionData) (now : Int) (s : Sched) : Sched :=
  let s := { s with room := { s.room with
              currentQuestionIndex := s.room.currentQuestionIndex + 1 } }
  if s.room.currentQuestionIndex ≥ questions.length then endGame s
  else startQuestion questions now s

/-- Elapsing of the live timeout `id`: the runtime drops it from the pending
set and runs its callback.  A no-op for a handle that is not live. -/
def fireTimer (questions : List QuestionData) (rs : Nat → Nat) (now : Int)
    (s : Sched) (id : Nat) : Sched :=
  match s.pending.find? (fun t => t.1 == id) with
  | none => s
  | some t =>
      let s := { s with pending := s.pending.filter (fun u => u.1 != id) }
      match t.2 with
      | .finalizeQ => finalizeBody questions rs s
      | .interRound => interRoundBody questions now s

/-- The `host:startGame` handler body after room lookup (lines 296–309). -/
def hostStartGame (questions : List QuestionData) (now : Int) (s : Sched) : Sched :=
  let s := { s with room := { s.room with
              currentQuestionIndex := 0,
              players := s.room.players.map (fun p =>
                { p with score := 0, stunnedUntil := -1, answers := [], powers := [] }) } }
  startQuestion questions now s

/-- Every state the server can drive a room (plus its timeouts) into:
creation by `host:createRoom`, the `host:startGame` / `room:join` /
`player:submitAnswer` / `player:usePower` handlers, and the elapsing of a
live timeout. -/
inductive Reachable (questions : List QuestionData) : Sched → Prop where
  | init (code sid : String) :
      Reachable questions (initSched { createRoom code with hostSocketId := some sid })
  | startGame (now : Int) {s : Sched} :
      Reachable questions s → Reachable questions (hostStartGame questions now s)
  | fire (rs : Nat → Nat) (now : Int) (id : Nat) {s : Sched} :
      Reachable questions s → Reachable questions (fireTimer questions rs now s id)
  | join (name avatarId playerId sockId : String) {s : Sched} :
      Reachable questions s →
      Reachable questions
        { s with room := (roomJoin s.room name avatarId playerId sockId).1 }
  | submit (playerId : String) (answerIndex now : Int) {s : Sched} :
      Reachable questions s →
      Reachable questions
        { s with room := (submitAnswer questions s.room playerId answerIndex now).1 }
  | power (playerId : String) (targetPlayerId : Option String) (powerIndex r : Nat)
      {s : Sched} :
      Reachable questions s →
      Reachable questions
        { s with room := (usePower questions s.room playerId targetPlayerId powerIndex r).1 }

/-! ### Concrete fixtures

A two-question catalog (the scenario of the design document's §8: question 0
has option scores `[100, 500]` with best option 1; question 1 is last, has
option scores `[200, 900]` with best option 0). -/

def demoQs : List QuestionData :=
  [ { id := 1, text := "q1", options := ["a", "b"],
      optionScores := some [100, 500], bestIndex := 1 },
    { id := 2, text := "q2", options := ["c", "d"],
      optionScores := some [200, 900], bestIndex := 0 } ]

/-- A fixed random source for power draws: pool index 5 is `STUN` on a
non-last question. -/
def rs0 : Nat → Nat := fun _ => 5

/-! Restart-during-results trace (for the timer invariant): the host creates
a room, starts the game at `t = 0`, the finalize timeout (handle 0) elapses
at `t = 31000`, and the host restarts the game at `t = 40000` while the
anonymous inter-round timeout (handle 1) is still pending. -/

def sA0 : Sched := initSched { createRoom "AAAA" with hostSocketId := some "h" }

def sA1 : Sched := hostStartGame demoQs 0 sA0

def sA2 : Sched := fireTimer demoQs rs0 31000 sA1 0

def sA3 : Sched := hostStartGame demoQs 40000 sA2

/-! Stun trace: Alice and Bob join, the game starts at `t = 0`, Alice
submits the best option of question 0, the finalize timeout elapses at
`t = 31000` granting Alice a `STUN` power, Alice stuns Bob during the
results phase (current question index still 0), the inter-round timeout
elapses at `t = 35000` starting question 1, and Bob submits at
`t = 36000`. -/

def sB0 : Sched := initSched { createRoom "BBBB" with hostSocketId := some "h" }

def sB1 : Sched := { sB0 with room := (roomJoin sB0.room "Alice" "av1" "A" "sa").1 }

def sB2 : Sched := { sB1 with room := (roomJoin sB1.room "Bob" "av2" "B" "sb").1 }

def sB3 : Sched := hostStartGame demoQs 0 sB2

def sB4 : Sched := { sB3 with room := (submitAnswer demoQs sB3.room "A" 1 5000).1 }

def sB5 : Sched := fireTimer demoQs rs0 31000 sB4 0

def sB6 : Sched := { sB5 with room := (usePower demoQs sB5.room "A" (some "B") 0 0).1 }

def sB7 : Sched := fireTimer demoQs rs0 35000 sB6 1

/-! ### Witness fixtures -/

/-- A lone player used by several concrete witnesses. -/
def wStunTarget : Player :=
  { playerId := "T", socketId := "st", name := "Tess", avatarId := "av9",
    score := 0, stunnedUntil := -1, answers := [], powers := [] }

/-- A room in the question phase of index 1 whose only player carries the
stun watermark 2 (stunned for the current question). -/
def wRoomC : Room :=
  { code := "CCCC", hostSocketId := some "h", state := .question,
    currentQuestionIndex := 1, questionEndsAt := some 100,
    players := [{ wStunTarget with stunnedUntil := 2 }], timer := none }

/-- The same situation one question later: index 2 equals the watermark. -/
def wRoomN : Room :=
  { wRoomC with currentQuestionIndex := 2 }

/-- The last demo question, as produced by `getQuestion demoQs 1`. -/
def wQlast : Question :=
  { id := 2, text := "q2", options := ["c", "d"], optionScores := some [200, 900],
    bestIndex := 0, isLast := true }

/-- A question with a missing option-score table. -/
def wQempty : Question :=
  { id := 9, text := "e", options := ["x"], optionScores := none,
    bestIndex := 0, isLast := false }

def wP1 : Player :=
  { playerId := "p1", socketId := "s1", name := "N1", avatarId := "a1",
    score := 5, stunnedUntil := -1, answers := [], powers := [] }

def wP2 : Player :=
  { wP1 with
      playerId := "p2", socketId := "s2", name := "N2", avatarId := "a2", score := 9 }

def wP3 : Player :=
  { wP1 with
      playerId := "p3", socketId := "s3", name := "N3", avatarId := "a3", score := 5 }

/-- "Every answer list key appears once": the per-player uniqueness of
`(player, questionIndex)` over the recorded answers. -/
def AnswersOk (p : Player) : Prop :=
  p.answers.Pairwise (fun a b => a.questionIndex ≠ b.questionIndex)

instance (p : Player) : Decidable (AnswersOk p) := by
  unfold AnswersOk
  infer_instance

/-- Projection of a player with the connection handle blanked, used to state
that a rejoin changes nothing but the socket. -/
def eraseSocket (p : Player) : Player :=
  { p with socketId := "" }

/-- A player who has already answered question 0. -/
def wPD : Player :=
  { playerId := "D", socketId := "sd", name := "Dana", avatarId := "av4",
    score := 100, stunnedUntil := -1,
    answers := [{ questionIndex := 0, answerIndex := 1, gained := 100 }], powers := [] }

/-- A room in the question phase of index 0 containing `wPD`. -/
def wRoomD : Room :=
  { code := "DDDD", hostSocketId := some "h", state := .question,
    currentQuestionIndex := 0, questionEndsAt := some 100,
    players := [wPD], timer := none }

/-- A player with no recorded answers yet. -/
def wPO : Player :=
  { playerId := "O", socketId := "so", name := "Omar", avatarId := "av5",
    score := 0, stunnedUntil := -1, answers := [], powers := [] }

/-- A room in the question phase of index 0 containing `wPO`. -/
def wRoomO : Room :=
  { code := "OOOO", hostSocketId := some "h", state := .question,
    currentQuestionIndex := 0, questionEndsAt := some 100,
    players := [wPO], timer := none }

/-- The first demo question, as produced by `getQuestion demoQs 0`. -/
def wQ0 : Question :=
  { id := 1, text := "q1", options := ["a", "b"], optionScores := some [100, 500],
    bestIndex := 1, isLast := false }

def wJ1 : Player :=
  { playerId := "J", socketId := "sj", name := "Jo", avatarId := "avJ",
    score := 40, stunnedUntil := 0,
    answers := [{ questionIndex := 0, answerIndex := 0, gained := 40 }],
    powers := [{ type := .PLUS, used := false }] }

def wJ2 : Player :=
  { playerId := "K", socketId := "sk", name := "Kim", avatarId := "avK",
    score := 10, stunnedUntil := -1, answers := [], powers := [] }

/-- A lobby room with two members, used for the rejoin witness. -/
def wRoomJ : Room :=
  { code := "JJJJ", hostSocketId := some "h", state := .lobby,
    currentQuestionIndex := 0, questionEndsAt := none,
    players := [wJ1, wJ2], timer := none }

/-! ### Helper lemmas -/

theorem lt_of_getElem?_some {α : Type} {l : List α} {i : Nat} {a : α}
    (h : l[i]? = some a) : i < l.length := by
  by_contra hn
  rw [List.getElem?_eq_none (Nat.le_of_not_lt hn)] at h
  exact absurd h (by simp)

/-! ### C1 — stun watermark -/

/-- C1 counterexample: in the reachable trace `sB7`, Alice activates `STUN`
against Bob while question index 0 is current (during its results phase),
setting Bob's `stunnedUntil` to 1; yet Bob's `submitAnswer` for the
immediately following question (index 1) is accepted with 800 points, not
rejected as stunned — refuting the claim at this input. -/
theorem stun_next_question_not_blocked :
    Reachable demoQs sB7
    ∧ sB6.room.players.map (fun p => (p.playerId, p.stunnedUntil)) = [("A", -1), ("B", 1)]
    ∧ sB6.room.currentQuestionIndex = 0
    ∧ sB7.room.currentQuestionIndex = 1
    ∧ (submitAnswer demoQs sB7.room "B" 0 36000).2 = SubmitRes.ok 800 :=
  ⟨.fire rs0 35000 1 (.power "A" (some "B") 0 0 (.fire rs0 31000 0 (.submit "A" 1 5000
      (.startGame 0 (.join "Bob" "av2" "B" "sb" (.join "Alice" "av1" "A" "sa"
        (.init "BBBB" "h"))))))),
   by decide, by decide, by decide, by decide⟩

/-- C1 (amended): activating `STUN` while question index `k` is current sets
the target's `stunnedUntil` to `k + 1`; the submit gate rejects a player as
stunned exactly for question indices strictly below this watermark, so the
target is blocked for the current question `k` itself, while a submission at
the immediately following question (index = watermark) passes the stun
gate. -/
theorem stun_blocks_current_question (questions : List QuestionData) (room : Room)
    (tIdx : Nat) (target : Player) (aIdx r : Nat)
    (ht : room.players[tIdx]? = some target)
    (roomC : Room) (pidC : String) (aiC nowC : Int) (pC : Player)
    (hCdl : deadlineExpired roomC.questionEndsAt nowC = false)
    (hCfind : roomC.players.find? (fun p => p.playerId == pidC) = some pC)
    (hCstun : pC.stunnedUntil = (roomC.currentQuestionIndex : Int) + 1)
    (roomN : Room) (pidN : String) (aiN nowN : Int) (pN : Player)
    (hNdl : deadlineExpired roomN.questionEndsAt nowN = false)
    (hNfind : roomN.players.find? (fun p => p.playerId == pidN) = some pN)
    (hNstun : pN.stunnedUntil = (roomN.currentQuestionIndex : Int)) :
    (applyPower questions room .STUN aIdx tIdx r).players[tIdx]? =
      some { target with stunnedUntil := (room.currentQuestionIndex : Int) + 1 }
    ∧ submitAnswer questions roomC pidC aiC nowC =
        (roomC, .error "You are stunned this question")
    ∧ (submitAnswer questions roomN pidN aiN nowN).2 ≠
        SubmitRes.error "You are stunned this question" := by
  refine ⟨?_, ?_, ?_⟩
  · have hlt := lt_of_getElem?_some ht
    simp [applyPower, updateAt, ht, List.getElem?_set_self hlt]
  · have hlt : (roomC.currentQuestionIndex : Int) < pC.stunnedUntil := by
      rw [hCstun]; omega
    simp [submitAnswer, hCdl, hCfind, hlt]
  · have hlt : ¬ (roomN.currentQuestionIndex : Int) < pN.stunnedUntil := by
      rw [hNstun]; omega
    simp only [submitAnswer, hNdl, Bool.false_eq_true, if_false, hNfind]
    rw [if_neg hlt]
    by_cases hany :
        pN.answers.any (fun a => a.questionIndex == roomN.currentQuestionIndex) = true
    · simp [hany]
    · simp only [hany, Bool.false_eq_true, if_false]
      cases hq : getQuestion questions roomN.currentQuestionIndex <;> simp [hq]

theorem stun_blocks_current_question_witness :
    (applyPower demoQs wRoomC .STUN 0 0 3).players[0]? =
      some { { wStunTarget with stunnedUntil := 2 } with
             stunnedUntil := (wRoomC.currentQuestionIndex : Int) + 1 }
    ∧ submitAnswer demoQs wRoomC "T" 0 50 =
        (wRoomC, .error "You are stunned this question")
    ∧ (submitAnswer demoQs wRoomN "T" 0 50).2 ≠
        SubmitRes.error "You are stunned this question" :=
  stun_blocks_current_question demoQs wRoomC 0 { wStunTarget with stunnedUntil := 2 } 0 3
    (by decide) wRoomC "T" 0 50 { wStunTarget with stunnedUntil := 2 } (by decide)
    (by decide) (by decide) wRoomN "T" 0 50 { wStunTarget with stunnedUntil := 2 }
    (by decide) (by decide) (by decide)

/-! ### C2 — deadline boundary -/

/-- C2 counterexample: in the reachable trace `sB3` the question deadline is
30000, and Bob's submission arriving exactly at 30000 is accepted (gaining
100) and mutates the room — refuting the claim that a submission exactly at
the deadline is rejected. -/
theorem submit_at_deadline_accepted :
    Reachable demoQs sB3
    ∧ sB3.room.questionEndsAt = some 30000
    ∧ (submitAnswer demoQs sB3.room "B" 0 30000).2 = SubmitRes.ok 100
    ∧ (submitAnswer demoQs sB3.room "B" 0 30000).1 ≠ sB3.room :=
  ⟨.startGame 0 (.join "Bob" "av2" "B" "sb" (.join "Alice" "av1" "A" "sa"
      (.init "BBBB" "h"))),
   by decide, by decide, by decide⟩

/-- C2 (amended): a submission strictly after the deadline is rejected with
the time-expired error and leaves the room unchanged — independent of any
timer state, since the gate reads only the submission time against
`questionEndsAt`; a submission at or before the deadline is never rejected
as time-expired. -/
theorem submit_after_deadline_rejected (questions : List QuestionData) (room : Room)
    (playerId : String) (answerIndex : Int) (now e : Int)
    (he : room.questionEndsAt = some e) :
    (now > e →
      submitAnswer questions room playerId answerIndex now = (room, .error "Time is up"))
    ∧ (now ≤ e →
      (submitAnswer questions room playerId answerIndex now).2 ≠
        SubmitRes.error "Time is up") := by
  constructor
  · intro h
    have hd : deadlineExpired room.questionEndsAt now = true := by
      simp [deadlineExpired, he, h]
    simp [submitAnswer, hd]
  · intro h
    have hd : deadlineExpired room.questionEndsAt now = false := by
      simp [deadlineExpired, he]; omega
    simp only [submitAnswer, hd, Bool.false_eq_true, if_false]
    cases hfind : room.players.find? (fun p => p.playerId == playerId) with
    | none => simp
    | some player =>
        simp only []
        by_cases hstun : (room.currentQuestionIndex : Int) < player.stunnedUntil
        · rw [if_pos hstun]; simp
        · rw [if_neg hstun]
          by_cases hany :
              player.answers.any
                (fun a => a.questionIndex == room.currentQuestionIndex) = true
          · simp [hany]
          · simp only [hany, Bool.false_eq_true, if_false]
            cases hq : getQuestion questions room.currentQuestionIndex <;> simp [hq]

theorem submit_after_deadline_rejected_witness :
    submitAnswer demoQs sB3.room "B" 0 30001 = (sB3.room, .error "Time is up")
    ∧ (submitAnswer demoQs sB3.room "B" 0 30000).2 ≠ SubmitRes.error "Time is up" :=
  ⟨(submit_after_deadline_rejected demoQs sB3.room "B" 0 30001 30000 (by decide)).1
      (by decide),
   (submit_after_deadline_rejected demoQs sB3.room "B" 0 30000 30000 (by decide)).2
      (by decide)⟩

/-! ### C3 — pending-timer invariant -/

/-- C3: the inter-round delay of `finalizeQuestion` is scheduled on an
anonymous, untracked timeout, so a `host:startGame` arriving during the
results phase leaves that timeout pending while `startQuestion` schedules a
new tracked finalize timeout: the reachable state `sA3` has two pending
scheduled transitions for one room.  Firing the stale inter-round timeout
then advances the freshly restarted game to question index 1 prematurely. -/
theorem two_pending_timers_reachable :
    Reachable demoQs sA3
    ∧ sA3.pending.map Prod.snd = [TimerKind.interRound, TimerKind.finalizeQ]
    ∧ sA3.room.timer = some 2
    ∧ sA3.room.currentQuestionIndex = 0
    ∧ (fireTimer demoQs rs0 44000 sA3 1).room.currentQuestionIndex = 1
    ∧ (fireTimer demoQs rs0 44000 sA3 1).room.state = RoomState.question :=
  ⟨.startGame 40000 (.fire rs0 31000 0 (.startGame 0 (.init "AAAA" "h"))),
   by decide, by decide, by decide, by decide, by decide⟩

/-! ### C8 — deadline outside the question phase -/

/-- C8 counterexample: the reachable state `sA2` is in the results phase yet
still carries `questionEndsAt = 30000` — the transition to results does not
clear the deadline, refuting the claim. -/
theorem questionEndsAt_not_cleared_in_results :
    Reachable demoQs sA2
    ∧ sA2.room.state = RoomState.results
    ∧ sA2.room.questionEndsAt = some 30000 :=
  ⟨.fire rs0 31000 0 (.startGame 0 (.init "AAAA" "h")), by decide, by decide⟩

/-- C8 (amended): `questionEndsAt` is null at room creation (Lobby) and is
set on entering the question phase, but the transitions to Results
(`finalizeQuestion`) and to Ended (`endGame`) leave it untouched: outside
the question phase it retains the stale deadline of the last question
instead of being null. -/
theorem questionEndsAt_stale_outside_question (questions : List QuestionData)
    (rs : Nat → Nat) (s : Sched) (code : String) :
    (finalizeBody questions rs s).room.questionEndsAt = s.room.questionEndsAt
    ∧ (endGame s).room.questionEndsAt = s.room.questionEndsAt
    ∧ (createRoom code).questionEndsAt = none := by
  refine ⟨?_, ?_, rfl⟩
  · unfold finalizeBody
    cases hq : getQuestion questions s.room.currentQuestionIndex <;>
      simp [hq, scheduleTimer]
  · unfold endGame clearRoomTimer
    cases ht : s.room.timer <;> simp [ht]

/-! ### C4 — effective score -/

/-- C4: for a question obtained from catalog position `i`, `getEffectiveScore`
returns the configured option score (`optionScores[answerIndex] || 0`)
multiplied by 4 exactly when `i` is the catalog's last position; a question
whose option-score table is missing or empty yields 0 for any answer. -/
theorem getEffectiveScore_correct (questions : List QuestionData) (i : Nat)
    (q q2 : Question) (a b : Int)
    (hq : getQuestion questions i = some q)
    (hq2 : q2.optionScores = none ∨ q2.optionScores = some []) :
    getEffectiveScore (some q) a =
      (match q.optionScores with
       | none => 0
       | some scores => jsIndexD scores a) *
        (if i + 1 = questions.length then 4 else 1)
    ∧ getEffectiveScore (some q2) b = 0 := by
  constructor
  · unfold getQuestion at hq
    cases hqd : questions[i]? with
    | none => rw [hqd] at hq; cases hq
    | some qd =>
        rw [hqd] at hq
        injection hq with hq
        subst hq
        unfold getEffectiveScore
        cases hos : qd.optionScores with
        | none => simp [hos]
        | some scores =>
            simp only [hos]
            by_cases hc : i + 1 = questions.length
            · have hd : ((i : Int) = (questions.length : Int) - 1) := by omega
              simp [hc, hd]
            · have hd : ¬ ((i : Int) = (questions.length : Int) - 1) := by omega
              simp [hc, hd]
  · rcases hq2 with h | h <;>
      simp [getEffectiveScore, h, jsIndexD]

theorem getEffectiveScore_correct_witness :
    getEffectiveScore (some wQlast) 0 =
      (match wQlast.optionScores with
       | none => 0
       | some scores => jsIndexD scores 0) *
        (if 1 + 1 = demoQs.length then 4 else 1)
    ∧ getEffectiveScore (some wQempty) 7 = 0 :=
  getEffectiveScore_correct demoQs 1 wQlast wQempty 0 7 (by decide) (Or.inl rfl)

/-! ### C5 — leaderboard ranks, order, stability -/

theorem withRanks_map_rank (i : Nat) (l : List Player) :
    (withRanks i l).map (fun e => e.rank) = List.range' (i + 1) l.length := by
  induction l generalizing i with
  | nil => simp [withRanks]
  | cons p ps ih => simp [withRanks, List.range'_succ, ih]

theorem withRanks_map_score (i : Nat) (l : List Player) :
    (withRanks i l).map (fun e => e.score) = l.map (fun p => p.score) := by
  induction l generalizing i with
  | nil => simp [withRanks]
  | cons p ps ih => simp [withRanks, ih]

theorem withRanks_map_proj (i : Nat) (l : List Player) :
    (withRanks i l).map (fun e => (e.playerId, e.name, e.score)) =
      l.map (fun p => (p.playerId, p.name, p.score)) := by
  induction l generalizing i with
  | nil => simp [withRanks]
  | cons p ps ih => simp [withRanks, ih]

theorem lbLE_trans : ∀ a b c : Player, lbLE a b → lbLE b c → lbLE a c := by
  intro a b c hab hbc
  simp only [lbLE, decide_eq_true_eq] at *
  omega

theorem lbLE_total : ∀ a b : Player, lbLE a b || lbLE b a := by
  intro a b
  simp only [lbLE, Bool.or_eq_true, decide_eq_true_eq]
  omega

/-- C5: the leaderboard (as computed identically at results and at game end)
assigns ranks exactly `1..N` in order, its scores are non-increasing, equal
scores retain the relative join order (stability of the sort), and the
entries are exactly the sorted players' data. -/
theorem leaderboard_ranks_sorted_stable (players : List Player) (a b : Player)
    (hab : [a, b].Sublist players) (hs : a.score = b.score) :
    (leaderboard players).map (fun e => e.rank) = List.range' 1 players.length
    ∧ ((leaderboard players).map (fun e => e.score)).Pairwise (fun x y => y ≤ x)
    ∧ [a, b].Sublist (players.mergeSort lbLE)
    ∧ (leaderboard players).map (fun e => (e.playerId, e.name, e.score)) =
        (players.mergeSort lbLE).map (fun p => (p.playerId, p.name, p.score)) := by
  refine ⟨?_, ?_, ?_, ?_⟩
  · rw [leaderboard, withRanks_map_rank, List.length_mergeSort]
  · rw [leaderboard, withRanks_map_score]
    have hsorted := List.sorted_mergeSort lbLE_trans lbLE_total players
    have h2 : (players.mergeSort lbLE).Pairwise (fun x y => y.score ≤ x.score) := by
      refine hsorted.imp ?_
      intro x y hxy
      simpa [lbLE] using hxy
    exact List.pairwise_map.mpr h2
  · exact List.pair_sublist_mergeSort lbLE_trans lbLE_total (by simp [lbLE, hs]) hab
  · rw [leaderboard, withRanks_map_proj]

theorem updateFirstP_mem {pred : Player → Bool} {f : Player → Player}
    {ps : List Player} {p' : Player} (h : p' ∈ updateFirstP pred f ps) :
    p' ∈ ps ∨ ∃ p, ps.find? pred = some p ∧ p' = f p := by
  induction ps with
  | nil => simp [updateFirstP] at h
  | cons q qs ih =>
      unfold updateFirstP at h
      by_cases hq : pred q
      · rw [if_pos hq] at h
        rcases List.mem_cons.mp h with h1 | h1
        · exact Or.inr ⟨q, by simp [List.find?_cons_of_pos _ hq], h1⟩
        · exact Or.inl (List.mem_cons_of_mem _ h1)
      · rw [if_neg hq] at h
        rcases List.mem_cons.mp h with h1 | h1
        · exact Or.inl (by simp [h1])
        · rcases ih h1 with h2 | ⟨p, hp, he⟩
          · exact Or.inl (List.mem_cons_of_mem _ h2)
          · exact Or.inr ⟨p, by rw [List.find?_cons_of_neg _ hq]; exact hp, he⟩

theorem find?_updateFirstP {pred : Player → Bool} {f : Player → Player}
    {ps : List Player} {p : Player} (h : ps.find? pred = some p)
    (hf : ∀ q, pred (f q) = pred q) :
    (updateFirstP pred f ps).find? pred = some (f p) := by
  induction ps with
  | nil => simp at h
  | cons q qs ih =>
      by_cases hq : pred q
      · rw [List.find?_cons_of_pos _ hq] at h
        injection h with h
        subst h
        unfold updateFirstP
        rw [if_pos hq]
        exact List.find?_cons_of_pos _ (by rw [hf]; exact hq)
      · rw [List.find?_cons_of_neg _ hq] at h
        unfold updateFirstP
        rw [if_neg hq, List.find?_cons_of_neg _ hq]
        exact ih h

theorem updateFirstP_map {β : Type} {g : Player → β} {pred : Player → Bool}
    {f : Player → Player} (hfg : ∀ p, g (f p) = g p) (ps : List Player) :
    (updateFirstP pred f ps).map g = ps.map g := by
  induction ps with
  | nil => rfl
  | cons q qs ih =>
      unfold updateFirstP
      by_cases hq : pred q
      · rw [if_pos hq]
        simp [hfg]
      · rw [if_neg hq]
        simp [ih]

theorem updateFirstP_congr {pred : Player → Bool} {f g : Player → Player}
    (hfg : ∀ p, f p = g p) (ps : List Player) :
    updateFirstP pred f ps = updateFirstP pred g ps := by
  induction ps with
  | nil => rfl
  | cons q qs ih =>
      unfold updateFirstP
      by_cases hq : pred q
      · rw [if_pos hq, if_pos hq, hfg]
      · rw [if_neg hq, if_neg hq, ih]

theorem leaderboard_ranks_sorted_stable_witness :
    (leaderboard [wP1, wP2, wP3]).map (fun e => e.rank) =
        List.range' 1 ([wP1, wP2, wP3] : List Player).length
    ∧ ((leaderboard [wP1, wP2, wP3]).map (fun e => e.score)).Pairwise
        (fun x y => y ≤ x)
    ∧ [wP1, wP3].Sublist (([wP1, wP2, wP3] : List Player).mergeSort lbLE)
    ∧ (leaderboard [wP1, wP2, wP3]).map (fun e => (e.playerId, e.name, e.score)) =
        (([wP1, wP2, wP3] : List Player).mergeSort lbLE).map
          (fun p => (p.playerId, p.name, p.score)) :=
  leaderboard_ranks_sorted_stable [wP1, wP2, wP3] wP1 wP3 (by decide) rfl

/-! ### C6 — duplicate answers -/

/-- A submission either leaves the room unchanged, or appends the single new
answer for the current question index to the first player matching the id —
and only after the no-prior-answer gate has passed. -/
theorem submitAnswer_players_cases (questions : List QuestionData) (room : Room)
    (pid : String) (ai now : Int) :
    (submitAnswer questions room pid ai now).1 = room
    ∨ ∃ player q,
        room.players.find? (fun p => p.playerId == pid) = some player
        ∧ player.answers.any
            (fun a => a.questionIndex == room.currentQuestionIndex) = false
        ∧ getQuestion questions room.currentQuestionIndex = some q
        ∧ (submitAnswer questions room pid ai now).1 =
            { room with
                players := updateFirstP (fun p => p.playerId == pid)
                  (fun p =>
                    { p with
                        answers := p.answers ++
                          [{ questionIndex := room.currentQuestionIndex,
                             answerIndex := ai,
                             gained := getEffectiveScore
                               (getQuestion questions room.currentQuestionIndex) ai }],
                        score := p.score + getEffectiveScore
                          (getQuestion questions room.currentQuestionIndex) ai })
                  room.players } := by
  unfold submitAnswer
  split
  · exact Or.inl rfl
  · split
    · exact Or.inl rfl
    · next player hfind =>
        split
        · exact Or.inl rfl
        · split
          · exact Or.inl rfl
          · next hany =>
              split
              · exact Or.inl rfl
              · next q hq =>
                  refine Or.inr ⟨player, q, hfind, by simpa using hany, hq, ?_⟩
                  simp [hq]

/-- `submitAnswer` preserves per-player uniqueness of answer keys. -/
theorem submitAnswer_preserves_answersOk (questions : List QuestionData)
    (room : Room) (pid : String) (ai now : Int)
    (h : ∀ p ∈ room.players, AnswersOk p) :
    ∀ p ∈ (submitAnswer questions room pid ai now).1.players, AnswersOk p := by
  rcases submitAnswer_players_cases questions room pid ai now with
    hcase | ⟨player, q, hfind, hany, hq, hres⟩
  · rw [hcase]; exact h
  · rw [hres]
    intro p' hp'
    rcases updateFirstP_mem hp' with hmem | ⟨p, hfp, he⟩
    · exact h _ hmem
    · rw [hfind] at hfp
      injection hfp with hfp
      subst hfp
      subst he
      have hao : AnswersOk player := h _ (List.mem_of_find?_eq_some hfind)
      unfold AnswersOk at hao ⊢
      simp only []
      rw [List.pairwise_append]
      refine ⟨hao, List.pairwise_singleton _ _, ?_⟩
      intro x hx y hy
      simp only [List.mem_singleton] at hy
      subst hy
      intro hcontra
      have hxf := List.any_eq_false.mp hany x hx
      simp [hcontra] at hxf

/-- C6: a second submission for an already-answered question index is
rejected with the duplicate-answer error and the room (score and recorded
answers included) is unchanged; moreover `submitAnswer` preserves the
at-most-one-answer-per-question-index property of every player. -/
theorem submitAnswer_duplicate_rejected (questions : List QuestionData) (room : Room)
    (pid : String) (ai now : Int) (player : Player)
    (hfind : room.players.find? (fun p => p.playerId == pid) = some player)
    (hAns : ∀ p ∈ room.players, AnswersOk p)
    (hdl : deadlineExpired room.questionEndsAt now = false)
    (hstun : player.stunnedUntil ≤ (room.currentQuestionIndex : Int))
    (hdup : player.answers.any
      (fun a => a.questionIndex == room.currentQuestionIndex) = true) :
    submitAnswer questions room pid ai now = (room, .error "Already answered")
    ∧ ∀ p ∈ (submitAnswer questions room pid ai now).1.players, AnswersOk p := by
  constructor
  · have hns : ¬ (room.currentQuestionIndex : Int) < player.stunnedUntil :=
      not_lt.mpr hstun
    simp [submitAnswer, hdl, hfind, hns, hdup]
  · exact submitAnswer_preserves_answersOk questions room pid ai now hAns

theorem submitAnswer_duplicate_rejected_witness :
    wRoomD.players.find? (fun p => p.playerId == "D") = some wPD
    ∧ deadlineExpired wRoomD.questionEndsAt 50 = false
    ∧ submitAnswer demoQs wRoomD "D" 1 50 = (wRoomD, .error "Already answered") :=
  ⟨by decide, by decide,
   (submitAnswer_duplicate_rejected demoQs wRoomD "D" 1 50 wPD (by decide)
      (by decide) (by decide) (by decide) (by decide)).1⟩

/-! ### C9 — no range validation of the answer index -/

/-- C9: `submitAnswer` never validates `answerIndex` against the option
list: an otherwise-valid submission with an out-of-range index (negative or
at/past the parallel option lists' length) is accepted with 0 points, is
recorded as the player's single answer for the question index (leaving the
score unchanged), and consumes that single submission — a later retry is
rejected as a duplicate. -/
theorem submitAnswer_out_of_range_accepted (questions : List QuestionData)
    (room : Room) (pid : String) (ai now : Int) (player : Player) (q : Question)
    (scores : List Int) (ai2 now2 : Int)
    (hdl : deadlineExpired room.questionEndsAt now = false)
    (hfind : room.players.find? (fun p => p.playerId == pid) = some player)
    (hstun : player.stunnedUntil ≤ (room.currentQuestionIndex : Int))
    (hnew : player.answers.any
      (fun a => a.questionIndex == room.currentQuestionIndex) = false)
    (hq : getQuestion questions room.currentQuestionIndex = some q)
    (hs : q.optionScores = some scores)
    (hlen : scores.length = q.options.length)
    (hoor : ai < 0 ∨ (q.options.length : Int) ≤ ai)
    (hdl2 : deadlineExpired room.questionEndsAt now2 = false) :
    (submitAnswer questions room pid ai now).2 = SubmitRes.ok 0
    ∧ (submitAnswer questions room pid ai now).1.players =
        updateFirstP (fun p => p.playerId == pid)
          (fun p =>
            { p with
                answers := p.answers ++
                  [{ questionIndex := room.currentQuestionIndex,
                     answerIndex := ai, gained := 0 }] })
          room.players
    ∧ submitAnswer questions (submitAnswer questions room pid ai now).1 pid ai2 now2 =
        ((submitAnswer questions room pid ai now).1, .error "Already answered") := by
  have hg : getEffectiveScore (some q) ai = 0 := by
    have hcast : (scores.length : Int) = (q.options.length : Int) := by
      exact_mod_cast congrArg Nat.cast hlen
    have hnin : ¬ (0 ≤ ai ∧ ai < (scores.length : Int)) := by
      rcases hoor with h | h <;> omega
    simp only [getEffectiveScore, hs, jsIndexD, if_neg hnin]
    cases q.isLast <;> simp
  have hns : ¬ (room.currentQuestionIndex : Int) < player.stunnedUntil :=
    not_lt.mpr hstun
  have hres : submitAnswer questions room pid ai now =
      ({ room with
          players := updateFirstP (fun p => p.playerId == pid)
            (fun p =>
              { p with
                  answers := p.answers ++
                    [{ questionIndex := room.currentQuestionIndex,
                       answerIndex := ai, gained := 0 }] })
            room.players },
       SubmitRes.ok 0) := by
    simp [submitAnswer, hdl, hfind, if_neg hns, hnew, hq, hg]
  refine ⟨by rw [hres], by rw [hres], ?_⟩
  rw [hres]
  have hfind2 : (updateFirstP (fun p => p.playerId == pid)
      (fun p =>
        { p with
            answers := p.answers ++
              [{ questionIndex := room.currentQuestionIndex,
                 answerIndex := ai, gained := 0 }] })
      room.players).find? (fun p => p.playerId == pid) =
        some { player with
               answers := player.answers ++
                 [{ questionIndex := room.currentQuestionIndex,
                    answerIndex := ai, gained := 0 }] } :=
    find?_updateFirstP hfind (fun q2 => rfl)
  have hdup2 : (player.answers ++
      ([{ questionIndex := room.currentQuestionIndex, answerIndex := ai,
          gained := 0 }] : List Answer)).any
        (fun a => a.questionIndex == room.currentQuestionIndex) = true := by
    simp
  simp [submitAnswer, hdl2, hfind2, hns, hdup2]

theorem submitAnswer_out_of_range_accepted_witness :
    deadlineExpired wRoomO.questionEndsAt 50 = false
    ∧ (submitAnswer demoQs wRoomO "O" 5 50).2 = SubmitRes.ok 0
    ∧ (submitAnswer demoQs wRoomO "O" 5 50).1.players =
        updateFirstP (fun p => p.playerId == "O")
          (fun p =>
            { p with
                answers := p.answers ++
                  [{ questionIndex := wRoomO.currentQuestionIndex,
                     answerIndex := 5, gained := 0 }] })
          wRoomO.players
    ∧ submitAnswer demoQs (submitAnswer demoQs wRoomO "O" 5 50).1 "O" 1 60 =
        ((submitAnswer demoQs wRoomO "O" 5 50).1, .error "Already answered") :=
  ⟨by decide,
   submitAnswer_out_of_range_accepted demoQs wRoomO "O" 5 50 wPO
     wQ0 [100, 500] 1 60 (by decide) (by decide) (by decide)
     (by decide) (by decide) (by decide) (by decide) (Or.inr (by decide)) (by decide)⟩

/-! ### C10 — idempotent rejoin -/

/-- C10: a join whose `playerId` already has a record only rebinds the
connection handle: the reply is a success, every player's non-socket data is
unchanged (supplied name and avatar ignored, even a conflicting avatar —
the avatar check is skipped), the matching record carries the new socket,
and every other room field is untouched. -/
theorem rejoin_rebinds_socket_only (room : Room)
    (name avatarId playerId sockId : String) (player : Player)
    (hfind : room.players.find? (fun p => p.playerId == playerId) = some player) :
    (roomJoin room name avatarId playerId sockId).2 = JoinRes.ok room.code playerId
    ∧ (roomJoin room name avatarId playerId sockId).1.players.map eraseSocket =
        room.players.map eraseSocket
    ∧ (roomJoin room name avatarId playerId sockId).1.players.find?
        (fun p => p.playerId == playerId) = some { player with socketId := sockId }
    ∧ (roomJoin room name avatarId playerId sockId).1 =
        { room with
            players := (roomJoin room name avatarId playerId sockId).1.players } := by
  have hany : room.players.any (fun p => p.playerId == playerId) = true := by
    rw [List.any_eq_true]
    refine ⟨player, List.mem_of_find?_eq_some hfind, ?_⟩
    have := List.find?_some hfind
    simpa using this
  have h1 : roomJoin room name avatarId playerId sockId =
      ({ room with
          players := updateFirstP (fun p => p.playerId == playerId)
            (fun p => { p with socketId := sockId }) room.players },
       .ok room.code playerId) := by
    simp [roomJoin, hany]
  rw [h1]
  refine ⟨rfl, ?_, ?_, rfl⟩
  · show (updateFirstP (fun p => p.playerId == playerId)
        (fun p => { p with socketId := sockId }) room.players).map eraseSocket =
      room.players.map eraseSocket
    exact @updateFirstP_map _ eraseSocket (fun p => p.playerId == playerId)
      (fun p => { p with socketId := sockId }) (fun p => rfl) room.players
  · show (updateFirstP (fun p => p.playerId == playerId)
        (fun p => { p with socketId := sockId }) room.players).find?
          (fun p => p.playerId == playerId) = some { player with socketId := sockId }
    exact find?_updateFirstP hfind (fun q => rfl)

theorem rejoin_rebinds_socket_only_witness :
    wRoomJ.players.find? (fun p => p.playerId == "J") = some wJ1
    ∧ (roomJoin wRoomJ "Newname" "avK" "J" "s9").2 = JoinRes.ok wRoomJ.code "J"
    ∧ (roomJoin wRoomJ "Newname" "avK" "J" "s9").1.players.map eraseSocket =
        wRoomJ.players.map eraseSocket
    ∧ (roomJoin wRoomJ "Newname" "avK" "J" "s9").1.players.find?
        (fun p => p.playerId == "J") = some { wJ1 with socketId := "s9" }
    ∧ (roomJoin wRoomJ "Newname" "avK" "J" "s9").1 =
        { wRoomJ with players := (roomJoin wRoomJ "Newname" "avK" "J" "s9").1.players } :=
  ⟨by decide, rejoin_rebinds_socket_only wRoomJ "Newname" "avK" "J" "s9" wJ1 (by decide)⟩

/-! ### C7 — single-use powers -/

theorem set_self_of_getElem? {α : Type} {l : List α} {i : Nat} {v : α}
    (h : l[i]? = some v) : l.set i v = l := by
  induction l generalizing i with
  | nil => simp at h
  | cons x xs ih =>
      cases i with
      | zero =>
          simp only [List.getElem?_cons_zero] at h
          injection h with h
          rw [List.set_cons_zero, h]
      | succ n =>
          simp only [List.getElem?_cons_succ] at h
          rw [List.set_cons_succ]
          rw [ih h]

theorem updateAt_map {β : Type} {g : Player → β} {f : Player → Player}
    (hfg : ∀ p, g (f p) = g p) (ps : List Player) (i : Nat) :
    (updateAt ps i f).map g = ps.map g := by
  unfold updateAt
  cases h : ps[i]? with
  | none => rfl
  | some p =>
      rw [List.map_set, hfg]
      refine set_self_of_getElem? ?_
      rw [List.getElem?_map, h]
      rfl

theorem swapScores_map {β : Type} {g : Player → β}
    (hg : ∀ p v, g { p with score := v } = g p) (ps : List Player) (i j : Nat) :
    (swapScores ps i j).map g = ps.map g := by
  unfold swapScores
  cases hi : ps[i]? with
  | none => rfl
  | some a =>
      cases hj : ps[j]? with
      | none => rfl
      | some b =>
          rw [List.map_set, List.map_set, hg a b.score, hg b a.score]
          have h1 : (ps.map g).set i (g a) = ps.map g := by
            refine set_self_of_getElem? ?_
            rw [List.getElem?_map, hi]
            rfl
          rw [h1]
          refine set_self_of_getElem? ?_
          rw [List.getElem?_map, hj]
          rfl

/-- `applyPower` can change scores and stun watermarks but never a player's
identity or power list. -/
theorem applyPower_map_idPowers (questions : List QuestionData) (room : Room)
    (t : PowerType) (a b : Nat) (r : Nat) :
    (applyPower questions room t a b r).players.map (fun p => (p.playerId, p.powers)) =
      room.players.map (fun p => (p.playerId, p.powers)) := by
  cases t with
  | PLUS =>
      simp only [applyPower]
      apply updateAt_map
      intro p
      rfl
  | MINUS =>
      simp only [applyPower]
      apply updateAt_map
      intro p
      rfl
  | SWAP_LOW =>
      simp only [applyPower]
      cases h : lowestIdx room.players with
      | none => rfl
      | some j =>
          apply swapScores_map
          intro p v
          rfl
  | SWAP_HIGH =>
      simp only [applyPower]
      cases h : highestIdx room.players with
      | none => rfl
      | some j =>
          apply swapScores_map
          intro p v
          rfl
  | X2_SCORE =>
      simp only [applyPower]
      apply updateAt_map
      intro p
      rfl
  | STUN =>
      simp only [applyPower]
      apply updateAt_map
      intro p
      rfl
  | FINAL_X4 =>
      simp only [applyPower]
      cases h : getQuestion questions room.currentQuestionIndex with
      | none => rfl
      | some q =>
          dsimp only
          cases hl : q.isLast with
          | true =>
              rw [if_pos rfl]
              apply updateAt_map
              intro p
              rfl
          | false =>
              rw [if_neg (by simp)]

theorem findIdxP_congr {pred : Player → Bool} {ps ps2 : List Player}
    (h : ps.map pred = ps2.map pred) : findIdxP pred ps = findIdxP pred ps2 := by
  induction ps generalizing ps2 with
  | nil =>
      have h2 : ps2 = [] := by simpa using h.symm
      subst h2
      rfl
  | cons p ps ih =>
      cases ps2 with
      | nil => simp at h
      | cons p2 ps2 =>
          simp only [List.map_cons, List.cons.injEq] at h
          obtain ⟨h1, h2⟩ := h
          unfold findIdxP
          rw [h1, ih h2]

/-- A power slot that is already marked used never activates: the handler
replies with the unavailability error, emits nothing, and leaves the room —
every score included — unchanged. -/
theorem usePower_used_slot_fails (questions : List QuestionData) (room : Room)
    (pid : String) (tpid : Option String) (pIdx : Nat) (r : Nat)
    (aIdx : Nat) (actor : Player) (power : Power)
    (haIdx : findIdxP (fun p => p.playerId == pid) room.players = some aIdx)
    (hactor : room.players[aIdx]? = some actor)
    (hpow : actor.powers[pIdx]? = some power)
    (hu : power.used = true) :
    usePower questions room pid tpid pIdx r = (room, .error "Power not available", []) := by
  simp [usePower, haIdx, hactor, hpow, hu]

/-- C7: with the actor found at position `aIdx` and the referenced slot
holding `power`, activation succeeds exactly when the slot is unused; a
successful use emits exactly one power-used event (and the room snapshot),
irreversibly marks the slot used, and therefore a second activation of the
same slot always fails with the unavailability error, emits nothing, and
leaves all scores unchanged; a slot already used never activates. -/
theorem usePower_single_use (questions : List QuestionData) (room : Room)
    (pid : String) (tpid tpid2 : Option String) (pIdx : Nat) (r r2 : Nat)
    (aIdx : Nat) (actor : Player) (power : Power)
    (haIdx : findIdxP (fun p => p.playerId == pid) room.players = some aIdx)
    (hactor : room.players[aIdx]? = some actor)
    (hpow : actor.powers[pIdx]? = some power) :
    ((usePower questions room pid tpid pIdx r).2.1 = PowerRes.ok ↔ power.used = false)
    ∧ (power.used = false →
        (usePower questions room pid tpid pIdx r).2.2 =
          [Event.powerUsed power.type, Event.roomUpdate])
    ∧ (power.used = false →
        usePower questions (usePower questions room pid tpid pIdx r).1 pid tpid2 pIdx r2 =
          ((usePower questions room pid tpid pIdx r).1,
           .error "Power not available", []))
    ∧ (power.used = true →
        usePower questions room pid tpid pIdx r =
          (room, .error "Power not available", [])) := by
  cases hu : power.used with
  | true =>
      have hfail := usePower_used_slot_fails questions room pid tpid pIdx r aIdx actor
        power haIdx hactor hpow hu
      refine ⟨?_, fun h => Bool.noConfusion h, fun h => Bool.noConfusion h,
        fun _ => hfail⟩
      rw [hfail]
      simp
  | false =>
      have hres : usePower questions room pid tpid pIdx r =
          ({ applyPower questions room power.type aIdx
               ((resolveTarget room (some aIdx) tpid).getD aIdx) r with
             players := updateAt
               (applyPower questions room power.type aIdx
                 ((resolveTarget room (some aIdx) tpid).getD aIdx) r).players aIdx
               (fun p =>
                 { p with powers := p.powers.set pIdx { power with used := true } }) },
           .ok, [.powerUsed power.type, .roomUpdate]) := by
        simp [usePower, haIdx, hactor, hpow, hu]
      refine ⟨?_, fun _ => by rw [hres], fun _ => ?_, ?_⟩
      · rw [hres]
        simp [hu]
      · rw [hres]
        set room1 := applyPower questions room power.type aIdx
          ((resolveTarget room (some aIdx) tpid).getD aIdx) r with hroom1
        have hmapg : room1.players.map (fun p => (p.playerId, p.powers)) =
            room.players.map (fun p => (p.playerId, p.powers)) :=
          applyPower_map_idPowers questions room power.type aIdx
            ((resolveTarget room (some aIdx) tpid).getD aIdx) r
        have hpt : (room1.players[aIdx]?).map (fun p => (p.playerId, p.powers)) =
            some (actor.playerId, actor.powers) := by
          rw [← List.getElem?_map, hmapg, List.getElem?_map, hactor]
          rfl
        obtain ⟨a1, ha1, ha1id, ha1pw⟩ :
            ∃ a1, room1.players[aIdx]? = some a1
              ∧ a1.playerId = actor.playerId ∧ a1.powers = actor.powers := by
          cases h2 : room1.players[aIdx]? with
          | none => rw [h2] at hpt; cases hpt
          | some a1 =>
              rw [h2] at hpt
              injection hpt with hpt
              exact ⟨a1, rfl, congrArg Prod.fst hpt, congrArg Prod.snd hpt⟩
        have hup : updateAt room1.players aIdx
            (fun p => { p with powers := p.powers.set pIdx { power with used := true } }) =
            room1.players.set aIdx
              { a1 with powers := a1.powers.set pIdx { power with used := true } } := by
          unfold updateAt
          rw [ha1]
        have hactor2 : (updateAt room1.players aIdx
            (fun p =>
              { p with powers := p.powers.set pIdx { power with used := true } }))[aIdx]? =
            some { a1 with powers := a1.powers.set pIdx { power with used := true } } := by
          rw [hup, List.getElem?_set_self (lt_of_getElem?_some ha1)]
        have hpow2 : ({ a1 with
            powers := a1.powers.set pIdx { power with used := true } }).powers[pIdx]? =
            some { power with used := true } := by
          have hlt : pIdx < a1.powers.length := by
            rw [ha1pw]
            exact lt_of_getElem?_some hpow
          exact List.getElem?_set_self hlt
        have hid1 : room1.players.map (fun p => p.playerId) =
            room.players.map (fun p => p.playerId) := by
          have h := congrArg (List.map Prod.fst) hmapg
          simpa [List.map_map, Function.comp] using h
        have hid2 : (updateAt room1.players aIdx
            (fun p =>
              { p with powers := p.powers.set pIdx { power with used := true } })).map
              (fun p => p.playerId) = room1.players.map (fun p => p.playerId) := by
          apply updateAt_map
          intro p
          rfl
        have hpredmap : (updateAt room1.players aIdx
            (fun p =>
              { p with powers := p.powers.set pIdx { power with used := true } })).map
              (fun p => p.playerId == pid) =
            room.players.map (fun p => p.playerId == pid) := by
          have h := congrArg (List.map (fun s => s == pid)) (hid2.trans hid1)
          simpa [List.map_map, Function.comp] using h
        have haIdx2 : findIdxP (fun p => p.playerId == pid)
            (updateAt room1.players aIdx
              (fun p =>
                { p with powers := p.powers.set pIdx { power with used := true } })) =
            some aIdx := (findIdxP_congr hpredmap).trans haIdx
        exact usePower_used_slot_fails questions _ pid tpid2 pIdx r2 aIdx
          { a1 with powers := a1.powers.set pIdx { power with used := true } }
          { power with used := true } haIdx2 hactor2 hpow2 rfl
      · exact fun h => Bool.noConfusion h

/-- A player holding one unused `MINUS` power, for the activation witness. -/
def wPU : Player :=
  { playerId := "U", socketId := "su", name := "Uma", avatarId := "av6",
    score := 500, stunnedUntil := -1, answers := [],
    powers := [{ type := .MINUS, used := false }] }

/-- A results-phase room containing `wPU` and `wPO`. -/
def wRoomU : Room :=
  { code := "UUUU", hostSocketId := some "h", state := .results,
    currentQuestionIndex := 0, questionEndsAt := some 30000,
    players := [wPU, wPO], timer := none }

theorem usePower_single_use_witness :
    ((usePower demoQs wRoomU "U" (some "O") 0 3).2.1 = PowerRes.ok
      ↔ ({ type := PowerType.MINUS, used := false } : Power).used = false)
    ∧ (usePower demoQs wRoomU "U" (some "O") 0 3).2.2 =
        [Event.powerUsed PowerType.MINUS, Event.roomUpdate]
    ∧ usePower demoQs (usePower demoQs wRoomU "U" (some "O") 0 3).1 "U" (some "O") 0 7 =
        ((usePower demoQs wRoomU "U" (some "O") 0 3).1,
         .error "Power not available", []) :=
  ⟨(usePower_single_use demoQs wRoomU "U" (some "O") (some "O") 0 3 7 0 wPU
      { type := .MINUS, used := false } (by decide) (by decide) (by decide)).1,
   (usePower_single_use demoQs wRoomU "U" (some "O") (some "O") 0 3 7 0 wPU
      { type := .MINUS, used := false } (by decide) (by decide) (by decide)).2.1 rfl,
   (usePower_single_use demoQs wRoomU "U" (some "O") (some "O") 0 3 7 0 wPU
      { type := .MINUS, used := false } (by decide) (by decide) (by decide)).2.2.1 rfl⟩

end Gameid
